import Mathlib

/-!
Shallow embedding of `src/app.py` (KNCCI JGP TA microdata cleaner).

The dashboard script loads a spreadsheet into a pandas dataframe `df`, computes
three audit subsets (lines 56-66), deduplicates the frame in three sequential
`drop_duplicates(..., keep='first')` stages (lines 70-79), enriches the cleaned
frame with `Age Group` and `PWD Status` columns (lines 88-101) and computes
summary counts and percentages (lines 104-112).

Modelling conventions:
  * a dataframe is a `List Record` in row order; a missing (NaN) cell is `none`;
  * pandas `drop_duplicates`/`duplicated` treat NaN cells as equal to each
    other, so plain decidable equality on `Option String` models key matching;
  * pandas `groupby` drops NaN group keys and `Series.nunique` ignores NaN
    values, which is modelled by grouping only on `some` keys and counting
    distinct values through `List.filterMap`;
  * `sort_values` returns a key-ascending permutation of its input with NaN
    sorted last (pandas default `na_position='last'`); the default
    `kind='quicksort'` leaves the order of key-tied rows unspecified, which the
    contract `IsSortValuesOutput` captures, `List.mergeSort` serving only as
    one concrete admissible output;
  * Python `str.strip().lower()` is modelled by an explicit ASCII
    strip-and-lowercase over the character list, and `pd.to_numeric(...,
    errors='coerce')` by an explicit decimal-digit parser returning `none` on
    unparsable text;
  * floating point percentages are modelled over `ℚ`.
-/

namespace KncciApp

/-- A raw spreadsheet cell that is later coerced to a number:
either already numeric, free text, or missing. -/
inductive RawVal where
  | numV (q : ℚ)
  | strV (s : String)
  | nullV
  deriving DecidableEq, Repr

/-- One row of the working dataframe `df`, restricted to the columns the
dedup/audit/enrichment core of `src/app.py` reads.  `none` models NaN. -/
structure Record where
  /-- column `WHAT IS YOUR NATIONAL ID?` (`id_col`, line 52) -/
  idKey : Option String
  /-- column `Business phone number` (`phone_col`, line 53) -/
  phoneKey : Option String
  /-- column `Business Location` -/
  location : Option String
  /-- column `Gender of owner` -/
  gender : Option String
  /-- column `Age of owner (full years)`, before numeric coercion -/
  ageRaw : RawVal
  /-- the disability column (`pwd_col`, line 94), before normalization -/
  pwd : Option String
  deriving DecidableEq, Repr

/-- The `(id_col, phone_col)` subset used at lines 66 and 70. -/
def pairKey (r : Record) : Option String × Option String :=
  (r.idKey, r.phoneKey)

/-- Accumulator loop of `drop_duplicates(subset=..., keep='first')`:
a row is kept iff its key has not been seen in an earlier row. -/
def dropDupAux {α κ : Type} [DecidableEq κ] (k : α → κ) (seen : List κ) :
    List α → List α
  | [] => []
  | r :: rs =>
    if k r ∈ seen then dropDupAux k seen rs
    else r :: dropDupAux k (k r :: seen) rs

/-- pandas `DataFrame.drop_duplicates(subset, keep='first')` keyed by `k`
(pandas treats NaN keys as equal to each other here). -/
def drop_duplicates {α κ : Type} [DecidableEq κ] (k : α → κ) (l : List α) :
    List α :=
  dropDupAux k [] l

/-- Lines 70-79: the three sequential dedup stages producing `df_clean` —
first on the `(id, phone)` pair, then on id alone, then on phone alone,
each `keep='first'`. -/
def df_clean (df : List Record) : List Record :=
  drop_duplicates (fun r => r.phoneKey)
    (drop_duplicates (fun r => r.idKey)
      (drop_duplicates pairKey df))

/-- Specification-style rendering of one `keep='first'` stage: keep the head
and remove every later row that duplicates its key, recursively.  Used to state
that the implementation's accumulator loop is a keep-first reduction. -/
def dedupSpec {α κ : Type} [DecidableEq κ] (k : α → κ) : List α → List α
  | [] => []
  | r :: rs => r :: dedupSpec k (rs.filter (fun x => decide (k x ≠ k r)))
termination_by l => l.length
decreasing_by
  simp only [List.length_cons]
  exact Nat.lt_succ_of_le (List.length_filter_le _ _)

/-- Number of rows of `df` whose `(id, phone)` pair is `p`. -/
def countPair (p : Option String × Option String) (df : List Record) : Nat :=
  df.countP (fun r => decide (pairKey r = p))

/-- `df.duplicated(subset=[id_col, phone_col], keep=False)` (line 66): a row is
marked iff its `(id, phone)` pair occurs at least twice in `df`. -/
def duplicatedKeepAll (df : List Record) (r : Record) : Bool :=
  decide (1 < countPair (pairKey r) df)

/-- Ascending order on one key column with NaN sorted last
(pandas `sort_values` default `na_position='last'`). -/
def optLE (a b : Option String) : Bool :=
  match a, b with
  | none, none => true
  | none, some _ => false
  | some _, none => true
  | some x, some y => decide (x ≤ y)

/-- Ascending order on the `(id, phone)` pair, id first. -/
def pairLE (a b : Option String × Option String) : Bool :=
  if a.1 = b.1 then optLE a.2 b.2 else optLE a.1 b.1

/-- Line 66: `exact_duplicates` — every row whose `(id, phone)` pair repeats,
sorted ascending by `(id, phone)`. -/
def exact_duplicates (df : List Record) : List Record :=
  (df.filter (duplicatedKeepAll df)).mergeSort
    (fun a b => pairLE (pairKey a) (pairKey b))

/-- `df.groupby(grp)[val].nunique()` evaluated at group key `v`:
the number of distinct non-NaN `val` cells among the rows whose `grp` cell is
`some v` (`groupby` drops NaN keys; `nunique` ignores NaN values). -/
def nuniqueBy (grp val : Record → Option String) (v : String)
    (df : List Record) : Nat :=
  (((df.filter (fun r => decide (grp r = some v))).filterMap val).dedup).length

/-- Lines 56-58 membership test: `df[id_col].isin(ids_with_multiple_phones)`.
The qualifying ids are those whose group has `nunique > 1` distinct phones;
a NaN id is never in the qualifying list, so it tests `False`. -/
def inIdsWithMultiplePhones (df : List Record) (r : Record) : Bool :=
  match r.idKey with
  | some v => decide (1 < nuniqueBy (fun x => x.idKey) (fun x => x.phoneKey) v df)
  | none => false

/-- Lines 61-63 membership test: `df[phone_col].isin(phones_with_multiple_ids)`. -/
def inPhonesWithMultipleIds (df : List Record) (r : Record) : Bool :=
  match r.phoneKey with
  | some v => decide (1 < nuniqueBy (fun x => x.phoneKey) (fun x => x.idKey) v df)
  | none => false

/-- `sort_values(by=key)` realized as `List.mergeSort` on the key order.
pandas' default `kind='quicksort'` leaves the order of key-tied rows
unspecified, so only permutation and sortedness facts — never tie order — are
drawn from this function; the full sort contract is `IsSortValuesOutput`. -/
def sortByKey (key : Record → Option String) (l : List Record) : List Record :=
  l.mergeSort (fun a b => optLE (key a) (key b))

/-- Contract of pandas `sort_values(by=key)` with the default
`kind='quicksort'` (lines 58 and 63): the output is some permutation of the
input that is ascending on the key.  numpy quicksort is not stable, so the
relative order of rows tied on the key is not specified: every list satisfying
this predicate is an admissible output of the sort. -/
def IsSortValuesOutput (key : Record → Option String) (l out : List Record) :
    Prop :=
  out.Perm l ∧ out.Pairwise (fun a b => optLE (key a) (key b) = true)

/-- Line 58: `same_id_diff_phone` — rows whose id group takes more than one
distinct phone value, sorted ascending by id. -/
def same_id_diff_phone (df : List Record) : List Record :=
  sortByKey (fun r => r.idKey) (df.filter (inIdsWithMultiplePhones df))

/-- Line 63: `same_phone_diff_id` — rows whose phone group takes more than one
distinct id value, sorted ascending by phone. -/
def same_phone_diff_id (df : List Record) : List Record :=
  sortByKey (fun r => r.phoneKey) (df.filter (inPhonesWithMultipleIds df))

/-! ### String normalization and numeric coercion (Record Normalizer) -/

/-- Python `str(...)` as applied by `astype(str)` (line 96): NaN prints `"nan"`. -/
def pandasStr : Option String → String
  | none => "nan"
  | some s => s

/-- ASCII whitespace, the characters stripped by Python `str.strip`. -/
def isSpaceChar (c : Char) : Bool :=
  c = ' ' || c = '\t' || c = '\n' || c = '\r'

/-- ASCII lowercasing of one character (Python `str.lower`). -/
def lowerChar (c : Char) : Char :=
  if 'A' ≤ c ∧ c ≤ 'Z' then Char.ofNat (c.toNat + 32) else c

/-- `.str.strip().str.lower()` (line 96): strip surrounding whitespace, then
lowercase. -/
def stripLower (s : String) : String :=
  ⟨((s.data.dropWhile isSpaceChar).reverse.dropWhile isSpaceChar).reverse.map
      lowerChar⟩

/-- `.str.lower()` alone (line 107). -/
def lowerStr (s : String) : String :=
  ⟨s.data.map lowerChar⟩

/-- Python `'sub' in s`: substring containment. -/
def containsSub (s sub : String) : Bool :=
  decide (sub.data <:+: s.data)

/-- Decimal-digit accumulator for the numeric coercion model. -/
def parseDigitsAux (acc : Nat) : List Char → Option Nat
  | [] => some acc
  | c :: cs =>
    if c.isDigit then parseDigitsAux (acc * 10 + (c.toNat - 48)) cs else none

/-- Integer-string parse used to model `pd.to_numeric`: `none` on the empty
string or any non-digit character. -/
def parseNatStr (s : String) : Option Nat :=
  match s.data with
  | [] => none
  | l => parseDigitsAux 0 l

/-- `pd.to_numeric(..., errors='coerce')` (line 88): numeric cells pass
through, integer text parses, anything unparsable (or missing) coerces to NaN
(`none`) instead of raising. -/
def to_numeric : RawVal → Option ℚ
  | RawVal.numV q => some q
  | RawVal.strV s => (parseNatStr s).map (fun n => (n : ℚ))
  | RawVal.nullV => none

/-- Lines 90-92: the `Age Group` lambda.  With a NaN age both numeric
comparisons are false, so the result is `Unknown`. -/
def ageGroupOf (x : Option ℚ) : String :=
  match x with
  | some q =>
    if 18 ≤ q ∧ q ≤ 35 then "Youth (18–35)"
    else if 35 < q then "Adult (36+)" else "Unknown"
  | none => "Unknown"

/-- Lines 97-98: the `PWD Status` lambda over the normalized disability cell. -/
def pwdStatusOf (x : String) : String :=
  if containsSub x "yes" then "Yes"
  else if containsSub x "no" then "No" else "Unspecified"

/-- A row of `df_clean` after section 6 of the script: the surviving original
cells plus the two derived columns.  The age cell and (when the column exists)
the disability cell hold the overwritten values of lines 88 and 96. -/
structure EnrichedRecord where
  idKey : Option String
  phoneKey : Option String
  location : Option String
  gender : Option String
  /-- `Age of owner (full years)` after the in-place numeric coercion (line 88) -/
  age : Option ℚ
  /-- the disability column after the in-place `strip().lower()` (line 96);
  untouched when the column is absent -/
  pwd : Option String
  /-- derived column `Age Group` (line 90) -/
  ageGroup : String
  /-- derived column `PWD Status` (lines 97-101) -/
  pwdStatus : String
  deriving DecidableEq, Repr

/-- Lines 88-101 applied to one surviving row.  `hasPwdCol` is the line 95 test
`pwd_col in df_clean.columns`. -/
def enrich (hasPwdCol : Bool) (r : Record) : EnrichedRecord :=
  { idKey := r.idKey
    phoneKey := r.phoneKey
    location := r.location
    gender := r.gender
    age := to_numeric r.ageRaw
    pwd := if hasPwdCol then some (stripLower (pandasStr r.pwd)) else r.pwd
    ageGroup := ageGroupOf (to_numeric r.ageRaw)
    pwdStatus :=
      if hasPwdCol then pwdStatusOf (stripLower (pandasStr r.pwd))
      else "Unspecified" }

/-- The enriched canonical set: sections 5 and 6 composed. -/
def enrichedClean (hasPwdCol : Bool) (df : List Record) : List EnrichedRecord :=
  (df_clean df).map (enrich hasPwdCol)

/-! ### Summaries (lines 104-112) -/

/-- Line 104: `total_participants = cleaned_count`. -/
def total_participants (df : List Record) : Nat :=
  (df_clean df).length

/-- Line 105: rows of `df_clean` whose `Age Group` is the youth label. -/
def total_youth (h : Bool) (df : List Record) : Nat :=
  ((enrichedClean h df).filter (fun e => decide (e.ageGroup = "Youth (18–35)"))).length

/-- Line 106: rows of `df_clean` whose `Age Group` is the adult label. -/
def total_adults (h : Bool) (df : List Record) : Nat :=
  ((enrichedClean h df).filter (fun e => decide (e.ageGroup = "Adult (36+)"))).length

/-- Line 107 membership test: `Gender of owner` lowercased contains
`'female'`, with `na=False` sending a NaN gender to `False`. -/
def isFemale (g : Option String) : Bool :=
  match g with
  | some s => containsSub (lowerStr s) "female"
  | none => false

/-- Line 107: the female count. -/
def female_count (h : Bool) (df : List Record) : Nat :=
  ((enrichedClean h df).filter (fun e => isFemale e.gender)).length

/-- Line 108: rows whose `PWD Status` is `Yes`. -/
def pwd_count (h : Bool) (df : List Record) : Nat :=
  ((enrichedClean h df).filter (fun e => decide (e.pwdStatus = "Yes"))).length

/-- Line 110: `(total_youth / total_participants) * 100 if total_participants
else 0` (Python truthiness: nonzero). -/
def youth_pct (h : Bool) (df : List Record) : ℚ :=
  if total_participants df ≠ 0 then
    ((total_youth h df : ℚ) / (total_participants df : ℚ)) * 100
  else 0

/-- Line 111: the female percentage with the same zero-total guard. -/
def female_pct (h : Bool) (df : List Record) : ℚ :=
  if total_participants df ≠ 0 then
    ((female_count h df : ℚ) / (total_participants df : ℚ)) * 100
  else 0

/-- Line 112: the PWD percentage with the same zero-total guard. -/
def pwd_pct (h : Bool) (df : List Record) : ℚ :=
  if total_participants df ≠ 0 then
    ((pwd_count h df : ℚ) / (total_participants df : ℚ)) * 100
  else 0

/-! ### Frame-level model for missing key columns

`src/app.py` addresses the two key columns by name with no existence guard
(unlike the disability column, guarded at line 95).  pandas raises `KeyError`
when `groupby`, column selection, or a `drop_duplicates` subset names an
absent column, so the audit/dedup section is modelled at frame level as an
`Except` computation that errors on the first access to a missing column. -/

/-- A dataframe together with its column list. -/
structure FrameR where
  cols : List String
  rows : List Record

/-- `id_col` (line 52). -/
def id_col : String := "WHAT IS YOUR NATIONAL ID?"

/-- `phone_col` (line 53). -/
def phone_col : String := "Business phone number"

/-- Accessing column `c`: pandas raises `KeyError` when it is absent. -/
def colCheck (f : FrameR) (c : String) : Except String Unit :=
  if c ∈ f.cols then Except.ok () else Except.error "KeyError"

/-- Lines 56-79 at frame level: `df.groupby(id_col)[phone_col]` (line 56),
`df.groupby(phone_col)[id_col]` (line 61), the `duplicated`/`drop_duplicates`
subsets (lines 66-78), then the cleaned rows.  The first access to a missing
key column aborts with `KeyError`. -/
def auditAndCleanFrame (f : FrameR) : Except String (List Record) :=
  match colCheck f id_col with
  | Except.error e => Except.error e
  | Except.ok _ =>
    match colCheck f phone_col with
    | Except.error e => Except.error e
    | Except.ok _ => Except.ok (df_clean f.rows)

/-! ### Lemmas about the keep-first dedup reduction -/

theorem dedupSpec_cons {α κ : Type} [DecidableEq κ] (k : α → κ) (r : α)
    (rs : List α) :
    dedupSpec k (r :: rs)
      = r :: dedupSpec k (rs.filter (fun x => decide (k x ≠ k r))) := by
  rw [dedupSpec]

theorem dedupSpec_sublist {α κ : Type} [DecidableEq κ] (k : α → κ)
    (l : List α) : (dedupSpec k l).Sublist l := by
  induction l using dedupSpec.induct k with
  | case1 => simp [dedupSpec]
  | case2 r rs ih =>
    rw [dedupSpec_cons]
    exact (ih.trans (List.filter_sublist _)).cons₂ r

theorem dedupSpec_pairwise {α κ : Type} [DecidableEq κ] (k : α → κ)
    (l : List α) : (dedupSpec k l).Pairwise (fun a b => k a ≠ k b) := by
  induction l using dedupSpec.induct k with
  | case1 => simp [dedupSpec]
  | case2 r rs ih =>
    rw [dedupSpec_cons]
    refine List.Pairwise.cons (fun b hb => ?_) ih
    have hb' : b ∈ rs.filter (fun x => decide (k x ≠ k r)) :=
      (dedupSpec_sublist k _).mem hb
    have hne : k b ≠ k r := of_decide_eq_true (List.mem_filter.mp hb').2
    exact fun h => hne h.symm

theorem dedupSpec_countP {α κ : Type} [DecidableEq κ] (k : α → κ) (v : κ)
    (l : List α) :
    (dedupSpec k l).countP (fun x => decide (k x = v))
      = if v ∈ l.map k then 1 else 0 := by
  induction l using dedupSpec.induct k with
  | case1 => simp [dedupSpec]
  | case2 r rs ih =>
    rw [dedupSpec_cons, List.countP_cons, ih]
    by_cases h : k r = v
    · have hnone : v ∉ (rs.filter (fun x => decide (k x ≠ k r))).map k := by
        intro hv
        rcases List.mem_map.mp hv with ⟨x, hx, hkx⟩
        exact of_decide_eq_true (List.mem_filter.mp hx).2 (hkx.trans h.symm)
      simp [h, hnone]
    · have hmem : v ∈ (rs.filter (fun x => decide (k x ≠ k r))).map k
          ↔ v ∈ (r :: rs).map k := by
        constructor
        · intro hv
          rcases List.mem_map.mp hv with ⟨x, hx, hkx⟩
          exact List.mem_map.mpr ⟨x, List.mem_cons_of_mem r (List.mem_filter.mp hx).1, hkx⟩
        · intro hv
          rcases List.mem_map.mp hv with ⟨x, hx, hkx⟩
          rcases List.mem_cons.mp hx with rfl | hx'
          · exact absurd hkx h
          · refine List.mem_map.mpr ⟨x, List.mem_filter.mpr ⟨hx', ?_⟩, hkx⟩
            exact decide_eq_true (fun he => h (he ▸ hkx))
      rw [if_congr hmem rfl rfl]
      simp [h]

theorem dropDupAux_eq {α κ : Type} [DecidableEq κ] (k : α → κ) (l : List α) :
    ∀ seen : List κ,
      dropDupAux k seen l = dedupSpec k (l.filter (fun x => decide (k x ∉ seen))) := by
  induction l with
  | nil => intro seen; simp [dropDupAux, dedupSpec]
  | cons r rs ih =>
    intro seen
    rw [dropDupAux]
    by_cases h : k r ∈ seen
    · rw [if_pos h, ih, List.filter_cons]
      simp [h]
    · rw [if_neg h, ih, List.filter_cons]
      have hr : decide (k r ∉ seen) = true := decide_eq_true h
      rw [if_pos hr, dedupSpec_cons, List.filter_filter]
      congr 2
      apply List.filter_congr
      intro x _
      by_cases h1 : k x ∈ seen <;> by_cases h2 : k x = k r <;>
        simp [h1, h2, List.mem_cons]

theorem drop_duplicates_eq {α κ : Type} [DecidableEq κ] (k : α → κ)
    (l : List α) : drop_duplicates k l = dedupSpec k l := by
  rw [drop_duplicates, dropDupAux_eq]
  congr 1
  simp

theorem drop_duplicates_sublist {α κ : Type} [DecidableEq κ] (k : α → κ)
    (l : List α) : (drop_duplicates k l).Sublist l := by
  rw [drop_duplicates_eq]; exact dedupSpec_sublist k l

theorem drop_duplicates_pairwise {α κ : Type} [DecidableEq κ] (k : α → κ)
    (l : List α) : (drop_duplicates k l).Pairwise (fun a b => k a ≠ k b) := by
  rw [drop_duplicates_eq]; exact dedupSpec_pairwise k l

theorem drop_duplicates_countP {α κ : Type} [DecidableEq κ] (k : α → κ)
    (v : κ) (l : List α) :
    (drop_duplicates k l).countP (fun x => decide (k x = v))
      = if v ∈ l.map k then 1 else 0 := by
  rw [drop_duplicates_eq]; exact dedupSpec_countP k v l

/-! ### Lemmas about the modelled `sort_values` -/

theorem optLE_refl (a : Option String) : optLE a a = true := by
  cases a with
  | none => rfl
  | some x => exact decide_eq_true (le_refl x)

theorem optLE_total (a b : Option String) : optLE a b || optLE b a := by
  cases a with
  | none => cases b <;> simp [optLE]
  | some x =>
    cases b with
    | none => simp [optLE]
    | some y =>
      rcases le_total x y with h | h <;> simp [optLE, h]

theorem optLE_trans (a b c : Option String) (h1 : optLE a b) (h2 : optLE b c) :
    optLE a c := by
  cases a with
  | none =>
    cases b with
    | none => exact h2
    | some y => exact absurd h1 (by simp [optLE])
  | some x =>
    cases c with
    | none => rfl
    | some z =>
      cases b with
      | none => exact absurd h2 (by simp [optLE])
      | some y =>
        exact decide_eq_true
          (le_trans (of_decide_eq_true h1) (of_decide_eq_true h2))

theorem sortByKey_perm (key : Record → Option String) (l : List Record) :
    (sortByKey key l).Perm l :=
  List.mergeSort_perm l _

theorem sortByKey_sorted (key : Record → Option String) (l : List Record) :
    (sortByKey key l).Pairwise (fun a b => optLE (key a) (key b) = true) := by
  exact List.sorted_mergeSort
    (fun a b c => optLE_trans (key a) (key b) (key c))
    (fun a b => optLE_total (key a) (key b)) l

/-! ### Lemmas about the modelled `groupby ... nunique` -/

theorem nuniqueBy_le_group_length (grp val : Record → Option String)
    (v : String) (df : List Record) :
    nuniqueBy grp val v df
      ≤ (df.filter (fun r => decide (grp r = some v))).length :=
  le_trans (List.dedup_sublist _).length_le (List.length_filterMap_le _ _)

theorem nuniqueBy_filter_isSome (grp val : Record → Option String)
    (v : String) (df : List Record) :
    nuniqueBy grp val v (df.filter (fun r => (val r).isSome))
      = nuniqueBy grp val v df := by
  unfold nuniqueBy
  congr 2
  rw [List.filter_filter]
  induction df with
  | nil => rfl
  | cons a l ih =>
    by_cases hg : grp a = some v <;> cases hv : val a <;>
      simp [List.filter_cons, List.filterMap_cons, hg, hv, ih]

/-! ### Claim theorems -/

/-- C1: the Deduplication Engine is a three-stage keep-first reduction applied
in this exact order — pair key, then identity key, then contact key — each
stage a keep-first-occurrence reduction (`dedupSpec`) operating on the
survivors of the previous stage, each stage's output a sublist of its input
(so the canonical output preserves the survivors' original relative order). -/
theorem dedup_engine_is_three_stage_keep_first (df : List Record) :
    df_clean df
      = dedupSpec (fun r => r.phoneKey)
          (dedupSpec (fun r => r.idKey) (dedupSpec pairKey df))
    ∧ List.Sublist (drop_duplicates pairKey df) df
    ∧ List.Sublist (drop_duplicates (fun r => r.idKey) (drop_duplicates pairKey df))
        (drop_duplicates pairKey df)
    ∧ List.Sublist (df_clean df)
        (drop_duplicates (fun r => r.idKey) (drop_duplicates pairKey df))
    ∧ List.Sublist (df_clean df) df := by
  refine ⟨?_, drop_duplicates_sublist _ _, drop_duplicates_sublist _ _,
    drop_duplicates_sublist _ _, ?_⟩
  · rw [df_clean, drop_duplicates_eq, drop_duplicates_eq, drop_duplicates_eq]
  · exact ((drop_duplicates_sublist _ _).trans
      (drop_duplicates_sublist _ _)).trans (drop_duplicates_sublist _ _)

/-- C2: the canonical set is no longer than the input, and no two of its rows
share an identity key or share a contact key — with missing (`none`) and empty
(`some ""`) keys matched literally like any other value, since the pairwise
distinctness is plain decidable equality on `Option String`. -/
theorem canonical_set_invariants (df : List Record) :
    (df_clean df).length ≤ df.length
    ∧ (df_clean df).Pairwise (fun a b => a.idKey ≠ b.idKey)
    ∧ (df_clean df).Pairwise (fun a b => a.phoneKey ≠ b.phoneKey) := by
  refine ⟨?_, ?_, drop_duplicates_pairwise _ _⟩
  · exact (((drop_duplicates_sublist _ _).trans
      (drop_duplicates_sublist _ _)).trans (drop_duplicates_sublist _ _)).length_le
  · exact List.Pairwise.sublist (drop_duplicates_sublist _ _)
      (drop_duplicates_pairwise (fun r : Record => r.idKey) _)

/-- C3: a `(id, phone)` pair occurring `n ≥ 2` times contributes all `n` of
its occurrences to `exact_duplicates` (not just the redundant ones), while
stage 1 keeps exactly one of them, i.e. removes exactly `n - 1` rows for that
pair. -/
theorem exact_duplicates_whole_group_and_stage1_removals (df : List Record)
    (p : Option String × Option String) (n : Nat)
    (hn : countPair p df = n) (h2 : 2 ≤ n) :
    countPair p (exact_duplicates df) = n
    ∧ countPair p (drop_duplicates pairKey df) = 1
    ∧ countPair p df - countPair p (drop_duplicates pairKey df) = n - 1 := by
  have hone : countPair p (drop_duplicates pairKey df) = 1 := by
    unfold countPair
    rw [drop_duplicates_countP]
    have hpos : 0 < df.countP (fun r => decide (pairKey r = p)) := by
      unfold countPair at hn; omega
    rcases List.countP_pos_iff.mp hpos with ⟨x, hx, hpx⟩
    have : p ∈ df.map pairKey :=
      List.mem_map.mpr ⟨x, hx, of_decide_eq_true hpx⟩
    rw [if_pos this]
  refine ⟨?_, hone, by rw [hn, hone]⟩
  have hperm : (exact_duplicates df).Perm (df.filter (duplicatedKeepAll df)) :=
    List.mergeSort_perm _ _
  unfold countPair
  rw [hperm.countP_eq, List.countP_filter]
  have hfun : (fun x => decide (pairKey x = p) && duplicatedKeepAll df x)
      = fun x => decide (pairKey x = p) := by
    funext x
    by_cases h : pairKey x = p
    · have : duplicatedKeepAll df x = true := by
        unfold duplicatedKeepAll
        rw [h, hn]
        exact decide_eq_true (by omega)
      simp [h, this]
    · simp [h]
  rw [hfun]
  exact hn

/-- C4 (amended): line 58 sorts with pandas' default `kind='quicksort'`,
which does not specify the relative order of rows tied on the sort key, so
the program guarantees only that the audit subset is some id-ascending
permutation of the qualifying rows.  For every such admissible output: it
contains exactly the rows whose id group takes more than one distinct phone
value, it is sorted ascending by id, and a row of a size-1 group never
appears; the file's `same_id_diff_phone` function is one admissible output. -/
theorem same_id_diff_phone_sorted_membership (df out : List Record)
    (h : IsSortValuesOutput (fun r => r.idKey)
        (df.filter (inIdsWithMultiplePhones df)) out) :
    (∀ r : Record, r ∈ out
        ↔ r ∈ df ∧ ∃ v : String, r.idKey = some v
            ∧ 1 < nuniqueBy (fun x => x.idKey) (fun x => x.phoneKey) v df)
    ∧ out.Pairwise (fun a b => optLE a.idKey b.idKey = true)
    ∧ (∀ (v : String) (r : Record), r.idKey = some v →
        (df.filter (fun x => decide (x.idKey = some v))).length ≤ 1 →
        r ∉ out)
    ∧ IsSortValuesOutput (fun r => r.idKey)
        (df.filter (inIdsWithMultiplePhones df)) (same_id_diff_phone df) := by
  obtain ⟨hperm, hsort⟩ := h
  refine ⟨?_, hsort, ?_, sortByKey_perm _ _, sortByKey_sorted _ _⟩
  · intro r
    rw [hperm.mem_iff, List.mem_filter]
    constructor
    · rintro ⟨hr, hp⟩
      refine ⟨hr, ?_⟩
      unfold inIdsWithMultiplePhones at hp
      cases hk : r.idKey with
      | none => rw [hk] at hp; exact absurd hp (by simp)
      | some v =>
        rw [hk] at hp
        exact ⟨v, rfl, of_decide_eq_true hp⟩
    · rintro ⟨hr, v, hk, hv⟩
      refine ⟨hr, ?_⟩
      unfold inIdsWithMultiplePhones
      rw [hk]
      exact decide_eq_true hv
  · intro v r hk hlen hmem
    rw [hperm.mem_iff, List.mem_filter] at hmem
    rcases hmem with ⟨-, hp⟩
    unfold inIdsWithMultiplePhones at hp
    rw [hk] at hp
    have h1 : 1 < nuniqueBy (fun x => x.idKey) (fun x => x.phoneKey) v df :=
      of_decide_eq_true hp
    have h2 := nuniqueBy_le_group_length (fun x => x.idKey)
      (fun x => x.phoneKey) v df
    omega

/-- C10: a row with a missing id never appears in `same_id_diff_phone` and a
row with a missing phone never appears in `same_phone_diff_id` (pandas `isin`
is false on NaN and `groupby` drops NaN keys), and missing values of the
opposite key never count toward the distinct-value tally that qualifies a
group (`nunique` ignores NaN): discarding the null-valued rows leaves every
tally unchanged. -/
theorem null_keys_excluded_from_conflict_audit (df : List Record) (r : Record) :
    (r ∈ same_id_diff_phone df → r.idKey ≠ none)
    ∧ (r ∈ same_phone_diff_id df → r.phoneKey ≠ none)
    ∧ (∀ v : String,
        nuniqueBy (fun x => x.idKey) (fun x => x.phoneKey) v
            (df.filter (fun x => (x.phoneKey).isSome))
          = nuniqueBy (fun x => x.idKey) (fun x => x.phoneKey) v df)
    ∧ (∀ v : String,
        nuniqueBy (fun x => x.phoneKey) (fun x => x.idKey) v
            (df.filter (fun x => (x.idKey).isSome))
          = nuniqueBy (fun x => x.phoneKey) (fun x => x.idKey) v df) := by
  refine ⟨?_, ?_, fun v => nuniqueBy_filter_isSome _ _ v df,
    fun v => nuniqueBy_filter_isSome _ _ v df⟩
  · intro hmem
    rw [same_id_diff_phone, (sortByKey_perm _ _).mem_iff, List.mem_filter] at hmem
    rcases hmem with ⟨-, hp⟩
    intro hk
    unfold inIdsWithMultiplePhones at hp
    rw [hk] at hp
    exact absurd hp (by simp)
  · intro hmem
    rw [same_phone_diff_id, (sortByKey_perm _ _).mem_iff, List.mem_filter] at hmem
    rcases hmem with ⟨-, hp⟩
    intro hk
    unfold inPhonesWithMultipleIds at hp
    rw [hk] at hp
    exact absurd hp (by simp)

/-- C5 (amended): the script addresses the two key columns with no existence
guard, so when either is absent the audit/dedup section raises `KeyError` at
its first access instead of degrading to a no-op; only with both columns
present does it return the cleaned rows. -/
theorem missing_key_column_raises_keyerror (f : FrameR) :
    (id_col ∈ f.cols → phone_col ∈ f.cols →
        auditAndCleanFrame f = Except.ok (df_clean f.rows))
    ∧ (id_col ∉ f.cols ∨ phone_col ∉ f.cols →
        auditAndCleanFrame f = Except.error "KeyError") := by
  constructor
  · intro h1 h2
    rw [auditAndCleanFrame, colCheck, if_pos h1, colCheck, if_pos h2]
  · intro h
    by_cases h1 : id_col ∈ f.cols
    · rcases h with h | h
      · exact absurd h1 h
      · rw [auditAndCleanFrame, colCheck, if_pos h1, colCheck, if_neg h]
    · rw [auditAndCleanFrame, colCheck, if_neg h1]

/-! ### Lemmas about the enrichment classifiers -/

theorem ageGroupOf_eq_youth_iff (x : Option ℚ) :
    ageGroupOf x = "Youth (18–35)" ↔ ∃ q : ℚ, x = some q ∧ 18 ≤ q ∧ q ≤ 35 := by
  cases x with
  | none =>
    constructor
    · intro hh; exact absurd hh (by decide)
    · rintro ⟨q, hq, -⟩; cases hq
  | some q =>
    rw [ageGroupOf]
    by_cases h1 : 18 ≤ q ∧ q ≤ 35
    · rw [if_pos h1]
      exact iff_of_true rfl ⟨q, rfl, h1⟩
    · rw [if_neg h1]
      constructor
      · intro hh
        by_cases h2 : 35 < q
        · rw [if_pos h2] at hh; exact absurd hh (by decide)
        · rw [if_neg h2] at hh; exact absurd hh (by decide)
      · rintro ⟨q', hq', hb⟩
        cases hq'
        exact absurd hb h1

theorem ageGroupOf_eq_adult_iff (x : Option ℚ) :
    ageGroupOf x = "Adult (36+)" ↔ ∃ q : ℚ, x = some q ∧ 35 < q := by
  cases x with
  | none =>
    constructor
    · intro hh; exact absurd hh (by decide)
    · rintro ⟨q, hq, -⟩; cases hq
  | some q =>
    rw [ageGroupOf]
    by_cases h1 : 18 ≤ q ∧ q ≤ 35
    · rw [if_pos h1]
      constructor
      · intro hh; exact absurd hh (by decide)
      · rintro ⟨q', hq', hb⟩
        cases hq'
        exact absurd hb (by linarith [h1.2])
    · rw [if_neg h1]
      by_cases h2 : 35 < q
      · rw [if_pos h2]
        exact iff_of_true rfl ⟨q, rfl, h2⟩
      · rw [if_neg h2]
        constructor
        · intro hh; exact absurd hh (by decide)
        · rintro ⟨q', hq', hb⟩
          cases hq'
          exact absurd hb h2

theorem ageGroupOf_eq_unknown_iff (x : Option ℚ) :
    ageGroupOf x = "Unknown"
      ↔ x = none ∨ ∃ q : ℚ, x = some q ∧ q < 18 := by
  cases x with
  | none => exact iff_of_true rfl (Or.inl rfl)
  | some q =>
    rw [ageGroupOf]
    by_cases h1 : 18 ≤ q ∧ q ≤ 35
    · rw [if_pos h1]
      constructor
      · intro hh; exact absurd hh (by decide)
      · rintro (hq | ⟨q', hq', hb⟩)
        · cases hq
        · cases hq'
          exact absurd hb (by linarith [h1.1])
    · rw [if_neg h1]
      by_cases h2 : 35 < q
      · rw [if_pos h2]
        constructor
        · intro hh; exact absurd hh (by decide)
        · rintro (hq | ⟨q', hq', hb⟩)
          · cases hq
          · cases hq'
            exact absurd hb (by linarith)
      · rw [if_neg h2]
        refine iff_of_true rfl (Or.inr ⟨q, rfl, ?_⟩)
        by_contra hc
        push_neg at hc
        rcases le_or_lt q 35 with h3 | h3
        · exact h1 ⟨hc, h3⟩
        · exact h2 h3

theorem pwdStatusOf_eq_yes_iff (x : String) :
    pwdStatusOf x = "Yes" ↔ containsSub x "yes" = true := by
  rw [pwdStatusOf]
  rcases Bool.eq_false_or_eq_true (containsSub x "yes") with hy | hy
  · rw [hy, if_pos rfl]
    exact iff_of_true rfl rfl
  · rw [hy, if_neg (by simp)]
    rcases Bool.eq_false_or_eq_true (containsSub x "no") with hn | hn
    · rw [hn, if_pos rfl]
      exact iff_of_false (by decide) (by simp)
    · rw [hn, if_neg (by simp)]
      exact iff_of_false (by decide) (by simp)

theorem pwdStatusOf_eq_no_iff (x : String) :
    pwdStatusOf x = "No"
      ↔ containsSub x "yes" = false ∧ containsSub x "no" = true := by
  rw [pwdStatusOf]
  rcases Bool.eq_false_or_eq_true (containsSub x "yes") with hy | hy
  · rw [hy, if_pos rfl]
    exact iff_of_false (by decide) (by simp)
  · rw [hy, if_neg (by simp)]
    rcases Bool.eq_false_or_eq_true (containsSub x "no") with hn | hn
    · rw [hn, if_pos rfl]
      exact iff_of_true rfl ⟨rfl, rfl⟩
    · rw [hn, if_neg (by simp)]
      exact iff_of_false (by decide) (by simp)

theorem pwdStatusOf_eq_unspecified_iff (x : String) :
    pwdStatusOf x = "Unspecified"
      ↔ containsSub x "yes" = false ∧ containsSub x "no" = false := by
  rw [pwdStatusOf]
  rcases Bool.eq_false_or_eq_true (containsSub x "yes") with hy | hy
  · rw [hy, if_pos rfl]
    exact iff_of_false (by decide) (by simp)
  · rw [hy, if_neg (by simp)]
    rcases Bool.eq_false_or_eq_true (containsSub x "no") with hn | hn
    · rw [hn, if_pos rfl]
      exact iff_of_false (by decide) (by simp)
    · rw [hn, if_neg (by simp)]
      exact iff_of_true rfl ⟨rfl, rfl⟩

/-! ### More claim theorems -/

/-- C6: `PWD Status` is computed by trimming and lowercasing the disability
cell and then testing substrings — containing `yes` classifies `Yes`,
otherwise containing `no` (including `no idea`) classifies `No`, otherwise
`Unspecified` — and when the disability column is absent every row is
`Unspecified`. -/
theorem pwd_status_substring_classification (r : Record) :
    ((enrich true r).pwdStatus = "Yes"
        ↔ containsSub (stripLower (pandasStr r.pwd)) "yes" = true)
    ∧ ((enrich true r).pwdStatus = "No"
        ↔ containsSub (stripLower (pandasStr r.pwd)) "yes" = false
          ∧ containsSub (stripLower (pandasStr r.pwd)) "no" = true)
    ∧ ((enrich true r).pwdStatus = "Unspecified"
        ↔ containsSub (stripLower (pandasStr r.pwd)) "yes" = false
          ∧ containsSub (stripLower (pandasStr r.pwd)) "no" = false)
    ∧ (enrich false r).pwdStatus = "Unspecified"
    ∧ pwdStatusOf (stripLower " YES ") = "Yes"
    ∧ pwdStatusOf (stripLower "no idea") = "No" := by
  have hst : (enrich true r).pwdStatus
      = pwdStatusOf (stripLower (pandasStr r.pwd)) := rfl
  refine ⟨?_, ?_, ?_, rfl, by decide, by decide⟩
  · rw [hst]; exact pwdStatusOf_eq_yes_iff _
  · rw [hst]; exact pwdStatusOf_eq_no_iff _
  · rw [hst]; exact pwdStatusOf_eq_unspecified_iff _

/-- C7: `Age Group` is `Youth (18–35)` exactly when the coerced age is between
18 and 35 inclusive, `Adult (36+)` exactly when it exceeds 35, and `Unknown`
when it is missing or below 18; ages 18 and 35 are Youth, 36 is Adult, 17 and
missing are Unknown, and unparsable age text coerces to `none` (hence
Unknown) instead of raising. -/
theorem age_group_classification (h : Bool) (r : Record) :
    ((enrich h r).ageGroup = "Youth (18–35)"
        ↔ ∃ q : ℚ, to_numeric r.ageRaw = some q ∧ 18 ≤ q ∧ q ≤ 35)
    ∧ ((enrich h r).ageGroup = "Adult (36+)"
        ↔ ∃ q : ℚ, to_numeric r.ageRaw = some q ∧ 35 < q)
    ∧ ((enrich h r).ageGroup = "Unknown"
        ↔ to_numeric r.ageRaw = none
          ∨ ∃ q : ℚ, to_numeric r.ageRaw = some q ∧ q < 18)
    ∧ ageGroupOf (some 18) = "Youth (18–35)"
    ∧ ageGroupOf (some 35) = "Youth (18–35)"
    ∧ ageGroupOf (some 36) = "Adult (36+)"
    ∧ ageGroupOf (some 17) = "Unknown"
    ∧ ageGroupOf none = "Unknown"
    ∧ to_numeric (RawVal.strV "seventeen") = none
    ∧ ageGroupOf (to_numeric (RawVal.strV "seventeen")) = "Unknown" := by
  have hag : (enrich h r).ageGroup = ageGroupOf (to_numeric r.ageRaw) := rfl
  refine ⟨hag ▸ ageGroupOf_eq_youth_iff _, hag ▸ ageGroupOf_eq_adult_iff _,
    hag ▸ ageGroupOf_eq_unknown_iff _, ?_, ?_, ?_, ?_, rfl, by decide, by decide⟩
  · rw [ageGroupOf, if_pos (by norm_num)]
  · rw [ageGroupOf, if_pos (by norm_num)]
  · rw [ageGroupOf, if_neg (by norm_num), if_pos (by norm_num)]
  · rw [ageGroupOf, if_neg (by norm_num), if_neg (by norm_num)]

/-- C9 (amended): the Demographic Enricher works on a copy of the canonical
set (the source rows feeding the Detector and the Engine are separate values
and unchanged), adds the two derived fields, and keeps every pre-existing
field at its ingested value EXCEPT two that it overwrites in place: the age
cell is replaced by its numeric coercion (line 88) and, when the disability
column exists, the disability cell is replaced by its trimmed lowercased form
(line 96). -/
theorem enricher_field_effects (h : Bool) (r : Record) (df : List Record) :
    (enrich h r).idKey = r.idKey
    ∧ (enrich h r).phoneKey = r.phoneKey
    ∧ (enrich h r).location = r.location
    ∧ (enrich h r).gender = r.gender
    ∧ (enrich h r).age = to_numeric r.ageRaw
    ∧ (enrich h r).pwd
        = (if h then some (stripLower (pandasStr r.pwd)) else r.pwd)
    ∧ enrichedClean h df = (df_clean df).map (enrich h) :=
  ⟨rfl, rfl, rfl, rfl, rfl, rfl, rfl⟩

/-- C8: every percentage equals count / total × 100 when the total is nonzero
and is 0 when the total is 0; on the empty input all counts and percentages
are zero, every audit subset is empty, and nothing faults. -/
theorem percentages_and_empty_input (h : Bool) (df : List Record) :
    (total_participants df = 0 →
        youth_pct h df = 0 ∧ female_pct h df = 0 ∧ pwd_pct h df = 0)
    ∧ (total_participants df ≠ 0 →
        youth_pct h df
            = ((total_youth h df : ℚ) / (total_participants df : ℚ)) * 100
        ∧ female_pct h df
            = ((female_count h df : ℚ) / (total_participants df : ℚ)) * 100
        ∧ pwd_pct h df
            = ((pwd_count h df : ℚ) / (total_participants df : ℚ)) * 100)
    ∧ total_participants [] = 0
    ∧ total_youth h [] = 0 ∧ total_adults h [] = 0
    ∧ female_count h [] = 0 ∧ pwd_count h [] = 0
    ∧ youth_pct h [] = 0 ∧ female_pct h [] = 0 ∧ pwd_pct h [] = 0
    ∧ same_id_diff_phone [] = [] ∧ same_phone_diff_id [] = []
    ∧ exact_duplicates [] = [] ∧ df_clean [] = [] := by
  refine ⟨?_, ?_, rfl, rfl, rfl, rfl, rfl, ?_, ?_, ?_, ?_, ?_, ?_, rfl⟩
  · intro h0
    rw [youth_pct, if_neg (fun hc => hc h0), female_pct,
      if_neg (fun hc => hc h0), pwd_pct, if_neg (fun hc => hc h0)]
    exact ⟨rfl, rfl, rfl⟩
  · intro h0
    rw [youth_pct, if_pos h0, female_pct, if_pos h0, pwd_pct, if_pos h0]
    exact ⟨rfl, rfl, rfl⟩
  · rw [youth_pct, if_neg (fun hc => hc rfl)]
  · rw [female_pct, if_neg (fun hc => hc rfl)]
  · rw [pwd_pct, if_neg (fun hc => hc rfl)]
  · rw [same_id_diff_phone, sortByKey]
    exact List.mergeSort_nil
  · rw [same_phone_diff_id, sortByKey]
    exact List.mergeSort_nil
  · rw [exact_duplicates]
    exact List.mergeSort_nil

/-! ### Concrete rows for the counterexamples and witnesses -/

/-- Row (ID `A`, phone `1`) from the worked example in the spec. -/
def rowA1 : Record :=
  { idKey := some "A", phoneKey := some "1", location := none, gender := none,
    ageRaw := RawVal.nullV, pwd := none }

/-- Row (ID `A`, phone `2`) from the worked example in the spec. -/
def rowA2 : Record :=
  { idKey := some "A", phoneKey := some "2", location := none, gender := none,
    ageRaw := RawVal.nullV, pwd := none }

/-- Row (ID `B`, phone `1`) from the worked example in the spec. -/
def rowB1 : Record :=
  { idKey := some "B", phoneKey := some "1", location := none, gender := none,
    ageRaw := RawVal.nullV, pwd := none }

/-- A lone row with id `C`, whose singleton group can never qualify. -/
def rowC : Record :=
  { idKey := some "C", phoneKey := some "9", location := none, gender := none,
    ageRaw := RawVal.nullV, pwd := none }

/-- An ingested row whose disability cell is mixed case with trailing space
and whose gender is `Female`, used by the enrichment witnesses. -/
def rowPwd : Record :=
  { idKey := some "D", phoneKey := some "7", location := some "Nairobi",
    gender := some "Female", ageRaw := RawVal.nullV, pwd := some "YES " }

/-- C9 counterexample: the claim says every pre-existing field of a canonical
record keeps its ingested value, but line 96 overwrites the disability cell
in place — enrichment turns the ingested `"YES "` into `"yes"`. -/
theorem enrich_overwrites_disability_cell :
    (enrich true rowPwd).pwd ≠ rowPwd.pwd := by decide

/-- C5 counterexample: with the phone column present but the id column absent,
the audit/dedup section raises `KeyError` (refuting "never raises a fatal
error"; nothing is treated as a no-op). -/
theorem missing_id_column_raises :
    auditAndCleanFrame { cols := [phone_col], rows := [rowA1] }
      = Except.error "KeyError" := by
  rw [auditAndCleanFrame, colCheck, if_neg (by decide)]

/-- Witness for C3 at the spec's worked example: the pair (`A`, `1`) occurs
twice, `exact_duplicates` holds both occurrences, and stage 1 keeps one. -/
theorem exact_duplicates_witness :
    countPair (some "A", some "1") [rowA1, rowA1, rowA2, rowB1] = 2
    ∧ (2 : Nat) ≤ 2
    ∧ countPair (some "A", some "1")
        (exact_duplicates [rowA1, rowA1, rowA2, rowB1]) = 2
    ∧ countPair (some "A", some "1")
        (drop_duplicates pairKey [rowA1, rowA1, rowA2, rowB1]) = 1 :=
  ⟨by decide, by decide,
    (exact_duplicates_whole_group_and_stage1_removals
      [rowA1, rowA1, rowA2, rowB1] (some "A", some "1") 2
      (by decide) (by decide)).1,
    (exact_duplicates_whole_group_and_stage1_removals
      [rowA1, rowA1, rowA2, rowB1] (some "A", some "1") 2
      (by decide) (by decide)).2.1⟩

/-- C4 counterexample: the claim asserts ties on the id key are resolved
stably, preserving the records' input order; but line 58's sort contract
admits this concrete output in which the two qualifying rows tied on id `A`
appear in reversed input order, so stability is not guaranteed by the
program. -/
theorem same_id_tie_order_not_guaranteed :
    IsSortValuesOutput (fun r => r.idKey)
        ([rowA1, rowA2].filter (inIdsWithMultiplePhones [rowA1, rowA2]))
        [rowA2, rowA1]
    ∧ [rowA2, rowA1]
        ≠ [rowA1, rowA2].filter (inIdsWithMultiplePhones [rowA1, rowA2]) := by
  have hf : [rowA1, rowA2].filter (inIdsWithMultiplePhones [rowA1, rowA2])
      = [rowA1, rowA2] := by decide
  refine ⟨⟨?_, ?_⟩, ?_⟩
  · rw [hf]
    exact List.Perm.swap rowA1 rowA2 []
  · refine List.Pairwise.cons ?_ (List.Pairwise.cons ?_ List.Pairwise.nil)
    · intro b hb
      have hb' : b = rowA1 := List.mem_singleton.mp hb
      subst hb'
      exact optLE_refl (some "A")
    · intro b hb
      exact absurd hb (List.not_mem_nil b)
  · rw [hf]
    decide

/-- Witness for C4 (amended): at a concrete input the in-input-order list is
itself an admissible sort output, and the theorem yields membership of a
qualifying row. -/
theorem same_id_sorted_membership_witness :
    IsSortValuesOutput (fun r => r.idKey)
        ([rowA1, rowA2].filter (inIdsWithMultiplePhones [rowA1, rowA2]))
        [rowA1, rowA2]
    ∧ (rowA1 ∈ ([rowA1, rowA2] : List Record)
        ∧ ∃ v : String, rowA1.idKey = some v
            ∧ 1 < nuniqueBy (fun x => x.idKey) (fun x => x.phoneKey) v
                [rowA1, rowA2]) := by
  have hf : [rowA1, rowA2].filter (inIdsWithMultiplePhones [rowA1, rowA2])
      = [rowA1, rowA2] := by decide
  have h0 : IsSortValuesOutput (fun r => r.idKey)
      ([rowA1, rowA2].filter (inIdsWithMultiplePhones [rowA1, rowA2]))
      [rowA1, rowA2] := by
    refine ⟨?_, ?_⟩
    · rw [hf]
    · refine List.Pairwise.cons ?_ (List.Pairwise.cons ?_ List.Pairwise.nil)
      · intro b hb
        have hb' : b = rowA2 := List.mem_singleton.mp hb
        subst hb'
        exact optLE_refl (some "A")
      · intro b hb
        exact absurd hb (List.not_mem_nil b)
  exact ⟨h0,
    ((same_id_diff_phone_sorted_membership [rowA1, rowA2] [rowA1, rowA2] h0).1
        rowA1).mp (by decide)⟩

/-- Witness for C10: on the spec's worked example the first (`A`, `1`) row is
in both audit subsets, and the theorem yields that its keys are non-null. -/
theorem null_keys_excluded_witness :
    rowA1 ∈ same_id_diff_phone [rowA1, rowA1, rowA2, rowB1]
    ∧ rowA1.idKey ≠ none
    ∧ rowA1 ∈ same_phone_diff_id [rowA1, rowA1, rowA2, rowB1]
    ∧ rowA1.phoneKey ≠ none := by
  have h1 : rowA1 ∈ same_id_diff_phone [rowA1, rowA1, rowA2, rowB1] := by
    rw [same_id_diff_phone, sortByKey, (List.mergeSort_perm _ _).mem_iff]
    decide
  have h2 : rowA1 ∈ same_phone_diff_id [rowA1, rowA1, rowA2, rowB1] := by
    rw [same_phone_diff_id, sortByKey, (List.mergeSort_perm _ _).mem_iff]
    decide
  exact ⟨h1,
    (null_keys_excluded_from_conflict_audit [rowA1, rowA1, rowA2, rowB1] rowA1).1 h1,
    h2,
    (null_keys_excluded_from_conflict_audit [rowA1, rowA1, rowA2, rowB1] rowA1).2.1 h2⟩

/-- Witness for C5 (amended): with both key columns present the section
returns the cleaned rows. -/
theorem missing_key_column_witness :
    id_col ∈ [id_col, phone_col] ∧ phone_col ∈ [id_col, phone_col]
    ∧ auditAndCleanFrame { cols := [id_col, phone_col], rows := [rowA1, rowA1] }
        = Except.ok [rowA1] :=
  ⟨by decide, by decide,
    (missing_key_column_raises_keyerror
      { cols := [id_col, phone_col], rows := [rowA1, rowA1] }).1
      (by decide) (by decide)⟩

/-- Witness for C8: a one-row input has a nonzero total, and the percentage
equations hold there. -/
theorem percentages_witness :
    total_participants [rowPwd] ≠ 0
    ∧ youth_pct true [rowPwd]
        = ((total_youth true [rowPwd] : ℚ)
            / (total_participants [rowPwd] : ℚ)) * 100 :=
  ⟨by decide,
    ((percentages_and_empty_input true [rowPwd]).2.1 (by decide)).1⟩

end KncciApp
